import Mathlib

/-!
Shallow embedding of the MegaSenaGenerator repository (src/app.py and
src/main.py) together with proofs about the embedded operations.

Python strings are modelled as List Char, stateful database access as
explicit store passing, and the process-local random source as an explicit
argument constrained by the contract of random.sample / random.randint.
-/

namespace MegaSena

/-- Stable ascending sort, modelling Python sorted(...) / list.sort() on
numbers.  Python sorting is stable; insertion sort is a stable sort, so for
a total preorder it computes the same list. -/
def pySort {α : Type} [LinearOrder α] (l : List α) : List α :=
  l.insertionSort (· ≤ ·)

/-! ### NumberSetGenerator: generate_game_logic (src/app.py lines 91-99) -/

/-- Models the list comprehension
[n for n in range(1, 61) if n not in fixed_numbers] in generate_game_logic. -/
def possible_numbers (fixed : List ℕ) : List ℕ :=
  (List.range' 1 60).filter (fun n => decide (n ∉ fixed))

/-- Models generate_game_logic from src/app.py.  The list produced by
random.sample(possible_numbers, needed) is passed explicitly as
random_part; theorems constrain it by the contract of random.sample
(a duplicate-free selection of the requested size from the population). -/
def generate_game_logic (fixed random_part : List ℕ) : List ℕ :=
  pySort (fixed ++ random_part)

/-! ### Desktop dialog generator: __gerarAleatorios (src/main.py lines 36-48) -/

/-- Models __gerarAleatorios from src/main.py.  The while loop accumulates
ten distinct results of randint(1, 60) (the pool argument given to this
model), random.sample(lista_sorteados, 6) picks six of them (the chosen
argument), and the chosen six are sorted and returned. -/
def gerarAleatorios (_pool chosen : List ℕ) : List ℕ :=
  pySort chosen

/-! ### Dates and string parsing helpers -/

/-- Calendar date as Python datetime.date / datetime.datetime exposes it. -/
structure Date where
  year : ℕ
  month : ℕ
  day : ℕ
deriving DecidableEq, Repr

/-- Gregorian leap-year rule, as implemented by Python's datetime. -/
def isLeapYear (y : ℕ) : Bool :=
  y % 4 == 0 && (y % 100 != 0 || y % 400 == 0)

/-- Number of days in a month, matching datetime's validation. -/
def daysInMonth (y m : ℕ) : ℕ :=
  if m = 2 then (if isLeapYear y then 29 else 28)
  else if m = 4 ∨ m = 6 ∨ m = 9 ∨ m = 11 then 30
  else 31

/-- Character is an ASCII decimal digit. -/
def isDigitChar (c : Char) : Bool :=
  48 ≤ c.toNat && c.toNat ≤ 57

/-- Numeric value of an ASCII digit character. -/
def digitVal (c : Char) : ℕ :=
  c.toNat - 48

/-- Value of a most-significant-digit-first digit string, as Python's int()
computes it for a plain digit string. -/
def valOfDigits (cs : List Char) : ℕ :=
  cs.foldl (fun acc c => 10 * acc + digitVal c) 0

/-- Models Python str.split(sep) for a one-character separator. -/
def splitOnChar (sep : Char) : List Char → List (List Char)
  | [] => [[]]
  | c :: cs =>
    if c = sep then [] :: splitOnChar sep cs
    else
      match splitOnChar sep cs with
      | [] => [[c]]
      | p :: ps => (c :: p) :: ps

/-- Models datetime.strptime(s, "%Y-%m-%d").date(): four year digits, one or
two month digits and one or two day digits separated by literal dashes
(CPython's strptime regular expressions for %Y, %m, %d), with the whole
string consumed; the matched field values must then form a valid calendar
date, otherwise datetime raises ValueError, modelled as none. -/
def strptimeYmd (cs : List Char) : Option Date :=
  match splitOnChar '-' cs with
  | [ys, ms, ds] =>
    if ys.length = 4 ∧ ys.all isDigitChar = true ∧
       1 ≤ ms.length ∧ ms.length ≤ 2 ∧ ms.all isDigitChar = true ∧
       1 ≤ ds.length ∧ ds.length ≤ 2 ∧ ds.all isDigitChar = true then
      let y := valOfDigits ys
      let m := valOfDigits ms
      let d := valOfDigits ds
      if 1 ≤ y ∧ 1 ≤ m ∧ m ≤ 12 ∧ 1 ≤ d ∧ d ≤ daysInMonth y m then
        some ⟨y, m, d⟩
      else none
    else none
  | _ => none

/-- Models datetime.strptime(s, "%d/%m/%Y").date(), used by the Excel
bulk loading of textual dates, with the same conventions as strptimeYmd. -/
def strptimeDmY (cs : List Char) : Option Date :=
  match splitOnChar '/' cs with
  | [ds, ms, ys] =>
    if ys.length = 4 ∧ ys.all isDigitChar = true ∧
       1 ≤ ms.length ∧ ms.length ≤ 2 ∧ ms.all isDigitChar = true ∧
       1 ≤ ds.length ∧ ds.length ≤ 2 ∧ ds.all isDigitChar = true then
      let y := valOfDigits ys
      let m := valOfDigits ms
      let d := valOfDigits ds
      if 1 ≤ y ∧ 1 ≤ m ∧ m ≤ 12 ∧ 1 ≤ d ∧ d ≤ daysInMonth y m then
        some ⟨y, m, d⟩
      else none
    else none
  | _ => none

/-! ### SpecialDrawClassifier: is_mega_da_virada (src/app.py lines 109-124) -/

/-- Possible Python runtime values of the date_val argument of
is_mega_da_virada: a string, a datetime.date / datetime.datetime (both
expose year, month and day), or a value of any other type. -/
inductive DateVal where
  | str (s : List Char)
  | dateObj (d : Date)
  | other
deriving DecidableEq

/-- Models is_mega_da_virada from src/app.py: strings are parsed with
strptime("%Y-%m-%d") and an unparseable string returns False; date objects
are used directly; any other type returns False; finally the check is
month == 12 and day == 31 and year >= 2009. -/
def is_mega_da_virada : DateVal → Bool
  | .str s =>
    match strptimeYmd s with
    | some d => d.month == 12 && d.day == 31 && decide (2009 ≤ d.year)
    | none => false
  | .dateObj d => d.month == 12 && d.day == 31 && decide (2009 ≤ d.year)
  | .other => false

/-- Spec-side reading of a DateVal: the calendar date it represents, if
any. -/
def dateValRepr : DateVal → Option Date
  | .str s => strptimeYmd s
  | .dateObj d => some d
  | .other => none

/-! ### DrawRecord store: official_draws and save_official_draw
(src/app.py lines 65-79) -/

/-- Row of the official_draws table.  The code stores the
strftime("%Y-%m-%d") text of the date; the model keeps the date value
itself. -/
structure Draw where
  contest_number : ℕ
  date : Date
  numbers : List ℤ
deriving DecidableEq, Repr

/-- State of the official_draws table: its rows in insertion order. -/
abbrev Store := List Draw

/-- Models save_official_draw from src/app.py: the INSERT commits exactly
when the contest_number primary key is not yet present; a duplicate key
raises sqlite3.IntegrityError before anything is written, the function
catches it and returns False with the table unchanged. -/
def save_official_draw (store : Store) (contest : ℕ) (date : Date)
    (numbers : List ℤ) : Bool × Store :=
  if store.any (fun r => r.contest_number == contest) then
    (false, store)
  else
    (true, store ++ [⟨contest, date, pySort numbers⟩])

/-! ### Bulk import: import_official_data_from_excel
(src/app.py lines 265-330) -/

/-- Value of one ball cell of an imported row: a value that int()
converts, carrying the converted integer; a value on which int() raises
ValueError (a non-numeric string, a NaN float), which the loop catches and
ignores; or a value on which int() raises TypeError (a datetime cell,
None), which the except ValueError clause does not catch, so the exception
escapes the import. -/
inductive Cell where
  | intVal (n : ℤ)
  | nonInt
  | typeErr
deriving DecidableEq

/-- Value of the Data cell of an imported row: a string (parsed with
strptime("%d/%m/%Y")), a datetime / date object, or a value of any other
type. -/
inductive RawDate where
  | str (s : List Char)
  | dateObj (d : Date)
  | other
deriving DecidableEq

/-- One spreadsheet row after the required-columns check: the Concurso
cell, the Data cell and the six bola cells. -/
structure Row where
  contest : ℕ
  rawDate : RawDate
  b1 : Cell
  b2 : Cell
  b3 : Cell
  b4 : Cell
  b5 : Cell
  b6 : Cell
deriving DecidableEq

/-- Conversion of the ball cells in column order, as the
for i in range(1, 7) loop performs it: a successful int() appends the
integer, a ValueError is caught and ignored (the except ValueError: pass),
and a TypeError aborts at that cell and escapes the loop, modelled as
none. -/
def ballInts : List Cell → Option (List ℤ)
  | [] => some []
  | .intVal n :: cs => (ballInts cs).map (fun ns => n :: ns)
  | .nonInt :: cs => ballInts cs
  | .typeErr :: _ => none

/-- Numbers collected from the six ball cells; none when a cell raises the
uncaught TypeError. -/
def rowNumbers (r : Row) : Option (List ℤ) :=
  ballInts [r.b1, r.b2, r.b3, r.b4, r.b5, r.b6]

/-- Date resolved for a row: an unparseable string skips the row (none);
a date object is used directly; any value of another type receives the
fallback datetime.date(1900, 1, 1). -/
def rowDate (r : Row) : Option Date :=
  match r.rawDate with
  | .str s => strptimeDmY s
  | .dateObj d => some d
  | .other => some ⟨1900, 1, 1⟩

/-- Models the row loop of import_official_data_from_excel: the added
count, the skipped count and the final store, or none when a ball cell
raised the uncaught TypeError, which aborts the import and discards any
counts.  The Python code accumulates the two counters while scanning
forward; the model adds each row's contribution to the tally of the
remaining rows, which yields the same totals. -/
def importRows (store : Store) : List Row → Option (ℕ × ℕ × Store)
  | [] => some (0, 0, store)
  | r :: rest =>
    match rowDate r with
    | none =>
      (importRows store rest).map (fun o => (o.1, o.2.1 + 1, o.2.2))
    | some d =>
      match rowNumbers r with
      | none => none
      | some nums =>
        if nums.length = 6 then
          match save_official_draw store r.contest d nums with
          | (ok, store2) =>
            if ok then
              (importRows store2 rest).map (fun o => (o.1 + 1, o.2.1, o.2.2))
            else
              (importRows store2 rest).map (fun o => (o.1, o.2.1 + 1, o.2.2))
        else
          (importRows store rest).map (fun o => (o.1, o.2.1 + 1, o.2.2))

/-- Fatal conditions of the import: missing file, unreadable file, or
required columns absent.  Each aborts before any row is processed. -/
inductive ImportError where
  | fileNotFound
  | readError
  | missingColumns
deriving DecidableEq

/-- Outcome of reading the Excel source: a fatal error, or the rows of the
spreadsheet. -/
inductive ExcelSource where
  | failed (e : ImportError)
  | table (rows : List Row)

/-- Models import_official_data_from_excel: a fatal read error or missing
required columns return counts (0, 0) and an error message; otherwise the
row loop runs with error component none — unless an uncaught exception
escapes the loop, in which case the function propagates it and reports no
(added, skipped, error) result at all, modelled as none. -/
def import_official_data_from_excel (store : Store) :
    ExcelSource → Option (ℕ × ℕ × Option ImportError × Store)
  | .failed e => some (0, 0, some e, store)
  | .table rows =>
    (importRows store rows).map (fun o => (o.1, o.2.1, none, o.2.2))

/-- Row the import skips and counts: the date cell is a string that
strptime cannot parse, or the ball cells convert — raising at most the
caught ValueError — to a list of other than six integers. -/
def SkippableRow (r : Row) : Prop :=
  rowDate r = none ∨ (∃ nums, rowNumbers r = some nums ∧ nums.length ≠ 6)

/-- Row that aborts the import: its date is resolved, but converting one
of its ball cells raises the uncaught TypeError. -/
def AbortingRow (r : Row) : Prop :=
  rowDate r ≠ none ∧ rowNumbers r = none

/-! ### MatchEngine: the simulation tab (src/app.py lines 528-559) -/

/-- Hit set of a candidate selection against one stored draw:
user_set.intersection(set(draw_nums)). -/
def hitSet (user : List ℤ) (nums : List ℤ) : Finset ℤ :=
  user.toFinset ∩ nums.toFinset

/-- Result card the simulation builds for one historical draw with enough
hits: contest number, draw date, the sorted draw numbers, the hit count
and the matched numbers. -/
structure SimEntry where
  contest : ℕ
  date : Date
  draw_nums : List ℤ
  hits : ℕ
  matched : Finset ℤ
deriving DecidableEq

/-- Card built for one stored draw. -/
def toSimEntry (user : List ℤ) (d : Draw) : SimEntry :=
  ⟨d.contest_number, d.date, pySort d.numbers, (hitSet user d.numbers).card,
    hitSet user d.numbers⟩

/-- Comparison realised by results.sort(key=lambda x: (x[hits], x[contest]),
reverse=True): entry a may precede entry b exactly when its (hits, contest)
pair is lexicographically at least that of b. -/
def simGE (a b : SimEntry) : Prop :=
  b.hits < a.hits ∨ (b.hits = a.hits ∧ b.contest ≤ a.contest)

instance : DecidableRel simGE := fun a b => by
  unfold simGE
  infer_instance

instance : IsTotal SimEntry simGE :=
  ⟨fun a b => by unfold simGE; omega⟩

instance : IsTrans SimEntry simGE :=
  ⟨fun a b c h1 h2 => by unfold simGE at h1 h2 ⊢; omega⟩

/-- Generalization of the simulation loop with the hit threshold as a
parameter (the source fixes the literal 3 at line 541): keep the stored
draws whose hit count reaches min_hits and sort the kept cards by
(hits, contest) descending, as the stable reverse sort of the code does. -/
def rankDraws (user : List ℤ) (draws : List Draw) (min_hits : ℕ) :
    List SimEntry :=
  ((draws.filter (fun d => decide (min_hits ≤ (hitSet user d.numbers).card))).map
    (toSimEntry user)).insertionSort simGE

/-- Models the simulation tab of page_official_draws: scan all stored
draws, keep those with hit count at least the fixed threshold 3, and sort
by (hits, contest) descending. -/
def simulateResults (user : List ℤ) (draws : List Draw) : List SimEntry :=
  ((draws.filter (fun d => decide (3 ≤ (hitSet user d.numbers).card))).map
    (toSimEntry user)).insertionSort simGE

/-! ### CombinationFrequencyAnalyzer (src/app.py lines 903-971) -/

/-- Models itertools.combinations on a list: every k-element subsequence,
in lexicographic order of positions. -/
def combinationsL {α : Type} : ℕ → List α → List (List α)
  | 0, _ => [[]]
  | _ + 1, [] => []
  | k + 1, x :: xs =>
    (combinationsL k xs).map (fun c => x :: c) ++ combinationsL (k + 1) xs

/-- Models the all_ngrams accumulation of page_dashboard: for every stored
draw, every ngram_size-combination of its sorted numbers, concatenated in
scan order. -/
def allNgrams (k : ℕ) (draws : List (List ℤ)) : List (List ℤ) :=
  (draws.map (fun draw => combinationsL k (pySort draw))).flatten

/-- Distinct elements of a list in first-occurrence order, as a Python
dict (and hence Counter) preserves key insertion order. -/
def counterKeys {α : Type} [DecidableEq α] (l : List α) : List α :=
  l.foldl (fun acc x => if x ∈ acc then acc else acc ++ [x]) []

/-- Comparison realised by Counter.most_common: descending on the count,
stable among equal counts. -/
def countGE {α : Type} (a b : α × ℕ) : Prop :=
  b.2 ≤ a.2

instance {α : Type} : DecidableRel (countGE (α := α)) := fun a b => by
  unfold countGE
  infer_instance

instance {α : Type} : IsTotal (α × ℕ) countGE :=
  ⟨fun a b => by unfold countGE; omega⟩

instance {α : Type} : IsTrans (α × ℕ) countGE :=
  ⟨fun a b c h1 h2 => by unfold countGE at h1 h2 ⊢; omega⟩

/-- Models Counter(l).most_common(n): one (key, multiplicity) pair per
distinct element of l in first-occurrence order, stably sorted descending
by count, truncated to the first n entries. -/
def mostCommon {α : Type} [DecidableEq α] (l : List α) (n : ℕ) :
    List (α × ℕ) :=
  (((counterKeys l).map (fun x => (x, l.count x))).insertionSort countGE).take n

/-- Models the combination-frequency output of the dashboard:
Counter(all_ngrams).most_common(15). -/
def combinationFrequencies (draws : List (List ℤ)) (k : ℕ) :
    List (List ℤ × ℕ) :=
  mostCommon (allNgrams k draws) 15

/-! ### Persistence and parsing of ticket numbers
(src/app.py lines 47-62 and 102-106) -/

/-- Models Python str(n) for a natural number: its decimal digits, most
significant first. -/
def pyStrNat (n : ℕ) : List Char :=
  if n = 0 then ['0'] else (Nat.digits 10 n).reverse.map Nat.digitChar

/-- Models Python str(i) for an integer: an optional minus sign followed
by the decimal digits of the absolute value. -/
def pyStrInt (i : ℤ) : List Char :=
  if i < 0 then '-' :: pyStrNat i.natAbs else pyStrNat i.natAbs

/-- Models Python int(s) on the decimal literals produced by str(): an
optional minus sign followed by a nonempty digit string converts; anything
else raises ValueError, modelled as none.  (Python additionally tolerates
surrounding whitespace, a plus sign and digit-group underscores, none of
which str() emits.) -/
def pyParseInt (cs : List Char) : Option ℤ :=
  match cs with
  | [] => none
  | c :: rest =>
    if c = '-' then
      if rest ≠ [] ∧ rest.all isDigitChar = true then
        some (-(valOfDigits rest : ℤ))
      else none
    else
      if (c :: rest).all isDigitChar = true then
        some ((valOfDigits (c :: rest) : ℤ))
      else none

/-- Models ",".join(pieces). -/
def joinComma : List (List Char) → List Char
  | [] => []
  | [p] => p
  | p :: ps => p ++ ',' :: joinComma ps

/-- Models the list comprehension [int(n) for n in pieces]: the first
piece on which int() raises ValueError aborts the whole conversion. -/
def parseAll : List (List Char) → Option (List ℤ)
  | [] => some []
  | p :: ps =>
    match pyParseInt p, parseAll ps with
    | some n, some ns => some (n :: ns)
    | _, _ => none

/-- Models parse_numbers_from_str from src/app.py:
[int(n) for n in numbers_str.split(",")]. -/
def parse_numbers_from_str (cs : List Char) : Option (List ℤ) :=
  parseAll (splitOnChar ',' cs)

/-- Serialized form a game is persisted under by save_generated_games:
",".join(map(str, sorted(numbers))). -/
def persistNumbers (ns : List ℤ) : List Char :=
  joinComma ((pySort ns).map pyStrInt)

/-! ### Theorems -/

theorem pySort_perm {α : Type} [LinearOrder α] (l : List α) : List.Perm (pySort l) l :=
  List.perm_insertionSort _ l

theorem pySort_sorted {α : Type} [LinearOrder α] (l : List α) :
    (pySort l).Sorted (· ≤ ·) :=
  List.sorted_insertionSort _ l

/-- Sorted strictly increasing when the input has no duplicates. -/
theorem pySort_sorted_lt {α : Type} [LinearOrder α] (l : List α) (h : l.Nodup) :
    (pySort l).Sorted (· < ·) :=
  (pySort_sorted l).lt_of_le ((pySort_perm l).nodup_iff.mpr h)

theorem mem_possible_numbers {fixed : List ℕ} {x : ℕ} :
    x ∈ possible_numbers fixed ↔ (1 ≤ x ∧ x ≤ 60) ∧ x ∉ fixed := by
  simp only [possible_numbers, List.mem_filter, List.mem_range'_1, decide_eq_true_eq]
  constructor
  · rintro ⟨⟨h1, h2⟩, h3⟩
    exact ⟨⟨h1, by omega⟩, h3⟩
  · rintro ⟨⟨h1, h2⟩, h3⟩
    exact ⟨⟨h1, by omega⟩, h3⟩

/-- C1: for every collection of at most 5 distinct fixed numbers in [1,60]
and every outcome of random.sample drawn from the remaining numbers,
generate_game_logic returns a strictly increasing list of exactly 6
distinct integers in [1,60] that contains every fixed number. -/
theorem generate_game_logic_spec (fixed random_part : List ℕ)
    (hnd : fixed.Nodup) (hrange : ∀ x ∈ fixed, 1 ≤ x ∧ x ≤ 60)
    (hlen : fixed.length ≤ 5)
    (hslen : random_part.length = 6 - fixed.length)
    (hsnd : random_part.Nodup)
    (hssub : ∀ x ∈ random_part, x ∈ possible_numbers fixed) :
    (generate_game_logic fixed random_part).Sorted (· < ·) ∧
    (generate_game_logic fixed random_part).length = 6 ∧
    (∀ x ∈ generate_game_logic fixed random_part, 1 ≤ x ∧ x ≤ 60) ∧
    (∀ x ∈ fixed, x ∈ generate_game_logic fixed random_part) := by
  have hperm : List.Perm (generate_game_logic fixed random_part)
      (fixed ++ random_part) := pySort_perm _
  have hmem : ∀ x, x ∈ generate_game_logic fixed random_part ↔
      x ∈ fixed ++ random_part := fun x => hperm.mem_iff
  have hnodup : (fixed ++ random_part).Nodup := by
    rw [List.nodup_append]
    refine ⟨hnd, hsnd, ?_⟩
    intro x hx hx2
    exact (mem_possible_numbers.mp (hssub x hx2)).2 hx
  refine ⟨?_, ?_, ?_, ?_⟩
  · exact pySort_sorted_lt _ hnodup
  · rw [hperm.length_eq, List.length_append, hslen]
    omega
  · intro x hx
    rcases List.mem_append.mp ((hmem x).mp hx) with h | h
    · exact hrange x h
    · exact (mem_possible_numbers.mp (hssub x h)).1
  · intro x hx
    exact (hmem x).mpr (List.mem_append.mpr (Or.inl hx))

/-- Witness for C1 at fixed = [10, 20], random_part = [1, 2, 3, 4]. -/
theorem generate_game_logic_spec_witness :
    ([10, 20] : List ℕ).Nodup ∧
    (generate_game_logic [10, 20] [1, 2, 3, 4]).Sorted (· < ·) ∧
    (generate_game_logic [10, 20] [1, 2, 3, 4]).length = 6 ∧
    (∀ x ∈ generate_game_logic [10, 20] [1, 2, 3, 4], 1 ≤ x ∧ x ≤ 60) ∧
    (∀ x ∈ ([10, 20] : List ℕ), x ∈ generate_game_logic [10, 20] [1, 2, 3, 4]) :=
  ⟨by decide,
   generate_game_logic_spec [10, 20] [1, 2, 3, 4] (by decide) (by decide)
     (by decide) (by decide) (by decide) (by decide)⟩

/-- C9: under the contracts of randint (pool is ten distinct numbers in
[1,60]) and random.sample (chosen is six distinct members of the pool),
the desktop generator returns a sorted strictly increasing list of exactly
6 distinct integers in [1,60] — the same output guarantee that
generate_game_logic gives with no fixed numbers. -/
theorem gerarAleatorios_spec (pool chosen : List ℕ)
    (hpool_nd : pool.Nodup) (hpool_len : pool.length = 10)
    (hpool_range : ∀ x ∈ pool, 1 ≤ x ∧ x ≤ 60)
    (hc_nd : chosen.Nodup) (hc_len : chosen.length = 6)
    (hc_sub : ∀ x ∈ chosen, x ∈ pool) :
    (gerarAleatorios pool chosen).Sorted (· < ·) ∧
    (gerarAleatorios pool chosen).length = 6 ∧
    (∀ x ∈ gerarAleatorios pool chosen, 1 ≤ x ∧ x ≤ 60) := by
  have hperm : List.Perm (gerarAleatorios pool chosen) chosen := pySort_perm _
  refine ⟨?_, ?_, ?_⟩
  · exact pySort_sorted_lt _ hc_nd
  · rw [hperm.length_eq, hc_len]
  · intro x hx
    exact hpool_range x (hc_sub x (hperm.mem_iff.mp hx))

/-- Witness for C9 at pool = [1..10], chosen = [2, 4, 6, 8, 10, 1]. -/
theorem gerarAleatorios_spec_witness :
    ([1, 2, 3, 4, 5, 6, 7, 8, 9, 10] : List ℕ).length = 10 ∧
    (gerarAleatorios [1, 2, 3, 4, 5, 6, 7, 8, 9, 10]
      [2, 4, 6, 8, 10, 1]).Sorted (· < ·) ∧
    (gerarAleatorios [1, 2, 3, 4, 5, 6, 7, 8, 9, 10]
      [2, 4, 6, 8, 10, 1]).length = 6 ∧
    (∀ x ∈ gerarAleatorios [1, 2, 3, 4, 5, 6, 7, 8, 9, 10]
      [2, 4, 6, 8, 10, 1], 1 ≤ x ∧ x ≤ 60) :=
  ⟨by decide,
   gerarAleatorios_spec [1, 2, 3, 4, 5, 6, 7, 8, 9, 10] [2, 4, 6, 8, 10, 1]
     (by decide) (by decide) (by decide) (by decide) (by decide) (by decide)⟩

/-- C5: is_mega_da_virada returns True exactly when its argument represents
a calendar date with month 12, day 31 and year at least 2009; every other
date and every unparseable date representation yields False.  The model is
a total function, reflecting that the Python function catches the only
exception its parsing can raise. -/
theorem is_mega_da_virada_spec (v : DateVal) :
    is_mega_da_virada v = true ↔
    ∃ d, dateValRepr v = some d ∧
      d.month = 12 ∧ d.day = 31 ∧ 2009 ≤ d.year := by
  cases v with
  | str s =>
    simp only [is_mega_da_virada, dateValRepr]
    cases h : strptimeYmd s with
    | none => simp
    | some d =>
      simp [Bool.and_eq_true, beq_iff_eq, decide_eq_true_eq, and_assoc]
  | dateObj d =>
    simp [is_mega_da_virada, dateValRepr, Bool.and_eq_true, beq_iff_eq,
      decide_eq_true_eq, and_assoc]
  | other =>
    simp [is_mega_da_virada, dateValRepr]

/-- C4: inserting an official draw whose contest_number already exists in
the store returns False and leaves the official_draws table unchanged: the
existing row is not overwritten and the row count is identical before and
after the attempt. -/
theorem save_official_draw_duplicate (store : Store) (contest : ℕ)
    (date : Date) (numbers : List ℤ)
    (h : ∃ r ∈ store, r.contest_number = contest) :
    (save_official_draw store contest date numbers).1 = false ∧
    (save_official_draw store contest date numbers).2 = store ∧
    (save_official_draw store contest date numbers).2.length = store.length := by
  obtain ⟨r, hr, hrc⟩ := h
  have hany : store.any (fun r => r.contest_number == contest) = true :=
    List.any_eq_true.mpr ⟨r, hr, by simp [hrc]⟩
  simp [save_official_draw, hany]

/-- Witness for C4: re-inserting contest 100 into a store already holding
contest 100 fails and leaves the single row in place. -/
theorem save_official_draw_duplicate_witness :
    (∃ r ∈ ([⟨100, ⟨2024, 5, 4⟩, [1, 2, 3, 4, 5, 6]⟩] : Store),
      r.contest_number = 100) ∧
    (save_official_draw [⟨100, ⟨2024, 5, 4⟩, [1, 2, 3, 4, 5, 6]⟩] 100
      ⟨2024, 6, 1⟩ [7, 8, 9, 10, 11, 12]).1 = false ∧
    (save_official_draw [⟨100, ⟨2024, 5, 4⟩, [1, 2, 3, 4, 5, 6]⟩] 100
      ⟨2024, 6, 1⟩ [7, 8, 9, 10, 11, 12]).2 =
      [⟨100, ⟨2024, 5, 4⟩, [1, 2, 3, 4, 5, 6]⟩] ∧
    (save_official_draw [⟨100, ⟨2024, 5, 4⟩, [1, 2, 3, 4, 5, 6]⟩] 100
      ⟨2024, 6, 1⟩ [7, 8, 9, 10, 11, 12]).2.length =
      ([⟨100, ⟨2024, 5, 4⟩, [1, 2, 3, 4, 5, 6]⟩] : Store).length :=
  ⟨⟨⟨100, ⟨2024, 5, 4⟩, [1, 2, 3, 4, 5, 6]⟩, by decide, rfl⟩,
   save_official_draw_duplicate _ 100 ⟨2024, 6, 1⟩ [7, 8, 9, 10, 11, 12]
     ⟨⟨100, ⟨2024, 5, 4⟩, [1, 2, 3, 4, 5, 6]⟩, by decide, rfl⟩⟩

/-- Helper: when the row loop completes without an uncaught exception,
added plus skipped equals the number of processed rows. -/
theorem importRows_count :
    ∀ (rows : List Row) (store : Store) (a s : ℕ) (st : Store),
      importRows store rows = some (a, s, st) → a + s = rows.length := by
  intro rows
  induction rows with
  | nil =>
    intro store a s st h
    simp only [importRows, Option.some.injEq, Prod.mk.injEq] at h
    obtain ⟨h1, h2, h3⟩ := h
    simp only [List.length_nil]
    omega
  | cons r rest ih =>
    intro store a s st h
    simp only [importRows] at h
    split at h
    · cases hrec : importRows store rest with
      | none => rw [hrec] at h; exact Option.noConfusion h
      | some out =>
        rw [hrec] at h
        simp only [Option.map_some', Option.some.injEq, Prod.mk.injEq] at h
        obtain ⟨h1, h2, h3⟩ := h
        have hih := ih store out.1 out.2.1 out.2.2 (by rw [hrec])
        simp only [List.length_cons]
        omega
    · split at h
      · exact Option.noConfusion h
      · split at h
        · split at h
          · cases hrec : importRows
                (save_official_draw store r.contest _ _).2 rest with
            | none => rw [hrec] at h; exact Option.noConfusion h
            | some out =>
              rw [hrec] at h
              simp only [Option.map_some', Option.some.injEq,
                Prod.mk.injEq] at h
              obtain ⟨h1, h2, h3⟩ := h
              have hih := ih _ out.1 out.2.1 out.2.2 (by rw [hrec])
              simp only [List.length_cons]
              omega
          · cases hrec : importRows
                (save_official_draw store r.contest _ _).2 rest with
            | none => rw [hrec] at h; exact Option.noConfusion h
            | some out =>
              rw [hrec] at h
              simp only [Option.map_some', Option.some.injEq,
                Prod.mk.injEq] at h
              obtain ⟨h1, h2, h3⟩ := h
              have hih := ih _ out.1 out.2.1 out.2.2 (by rw [hrec])
              simp only [List.length_cons]
              omega
        · cases hrec : importRows store rest with
          | none => rw [hrec] at h; exact Option.noConfusion h
          | some out =>
            rw [hrec] at h
            simp only [Option.map_some', Option.some.injEq,
              Prod.mk.injEq] at h
            obtain ⟨h1, h2, h3⟩ := h
            have hih := ih store out.1 out.2.1 out.2.2 (by rw [hrec])
            simp only [List.length_cons]
            omega

/-- Helper: a row the loop skips only bumps the skipped count of the
remaining rows; the store, the insertions and the outcome (including an
abort further down the batch) are untouched. -/
theorem importRows_skippable (store : Store) (bad : Row) (rest : List Row)
    (hbad : SkippableRow bad) :
    importRows store (bad :: rest) =
      (importRows store rest).map (fun o => (o.1, o.2.1 + 1, o.2.2)) := by
  rcases hbad with hdate | ⟨nums, hnums, hlen⟩
  · simp [importRows, hdate]
  · cases hdate : rowDate bad with
    | none => simp [importRows, hdate]
    | some d => simp [importRows, hdate, hnums, hlen]

/-- Helper: a row whose ball conversion raises the uncaught TypeError
aborts the import: no result is reported and the remaining rows are never
processed. -/
theorem importRows_aborting (store : Store) (bad : Row) (rest : List Row)
    (hbad : AbortingRow bad) :
    importRows store (bad :: rest) = none := by
  obtain ⟨hdate, hnums⟩ := hbad
  cases hd : rowDate bad with
  | none => exact absurd hd hdate
  | some d => simp [importRows, hd, hnums]

/-- C2 counterexample: a batch whose first row has a datetime in a ball
cell — a non-integer ball value on which int() raises TypeError, which the
loop catches no better than the except ValueError clause can — makes the
whole run return nothing: the fully valid second row is never added and no
(added, skipped, error) triple is reported, so the bad row did abort the
processing of the remaining rows. -/
theorem import_typeError_aborts :
    importRows []
      [⟨5, .dateObj ⟨2020, 1, 1⟩, .typeErr, .intVal 2, .intVal 3,
        .intVal 4, .intVal 5, .intVal 6⟩,
       ⟨6, .dateObj ⟨2020, 1, 2⟩, .intVal 1, .intVal 2, .intVal 3,
        .intVal 4, .intVal 5, .intVal 6⟩] = none ∧
    import_official_data_from_excel []
      (.table [⟨5, .dateObj ⟨2020, 1, 1⟩, .typeErr, .intVal 2, .intVal 3,
        .intVal 4, .intVal 5, .intVal 6⟩,
       ⟨6, .dateObj ⟨2020, 1, 2⟩, .intVal 1, .intVal 2, .intVal 3,
        .intVal 4, .intVal 5, .intVal 6⟩]) = none :=
  ⟨rfl, rfl⟩

/-- C2 (amended): during bulk import every row whose conversions raise at
most the caught ValueError — a string date the parser rejects, or ball
cells yielding other than six integers — is skipped individually and
counted as skipped, leaving the remaining rows and the store untouched;
when the loop completes, added plus skipped equals the number of rows and
the batch reports (added, skipped, none); but a ball cell on which int()
raises TypeError (a datetime cell, None) is not caught by the loop's
except ValueError: it aborts the entire import and no batch result is
reported. -/
theorem import_batch_spec (store : Store) (rows : List Row)
    (bad abrt : Row) (rest : List Row)
    (hbad : SkippableRow bad) (habrt : AbortingRow abrt) :
    (∀ a s st, importRows store rows = some (a, s, st) →
      a + s = rows.length) ∧
    importRows store (bad :: rest) =
      (importRows store rest).map (fun o => (o.1, o.2.1 + 1, o.2.2)) ∧
    (∀ a s st, importRows store rows = some (a, s, st) →
      import_official_data_from_excel store (.table rows) =
        some (a, s, none, st)) ∧
    importRows store (abrt :: rest) = none := by
  refine ⟨fun a s st h => importRows_count rows store a s st h,
    importRows_skippable store bad rest hbad, ?_,
    importRows_aborting store abrt rest habrt⟩
  intro a s st h
  simp [import_official_data_from_excel, h]

/-- Witness for C2 (amended): a skippable row with a non-integer ball cell
(only five integers convert), an aborting row with a datetime ball cell,
and one fully valid row whose batch completes. -/
theorem import_batch_spec_witness :
    SkippableRow ⟨2, .dateObj ⟨2020, 1, 1⟩, .intVal 1, .intVal 2, .intVal 3,
      .intVal 4, .intVal 5, .nonInt⟩ ∧
    AbortingRow ⟨3, .dateObj ⟨2020, 1, 1⟩, .typeErr, .intVal 2, .intVal 3,
      .intVal 4, .intVal 5, .intVal 6⟩ ∧
    ((∀ a s st, importRows [] [⟨1, .dateObj ⟨2020, 1, 1⟩, .intVal 1,
        .intVal 2, .intVal 3, .intVal 4, .intVal 5, .intVal 6⟩] =
          some (a, s, st) → a + s = 1) ∧
      importRows [] (⟨2, .dateObj ⟨2020, 1, 1⟩, .intVal 1, .intVal 2,
          .intVal 3, .intVal 4, .intVal 5, .nonInt⟩ :: []) =
        (importRows [] []).map (fun o => (o.1, o.2.1 + 1, o.2.2)) ∧
      (∀ a s st, importRows [] [⟨1, .dateObj ⟨2020, 1, 1⟩, .intVal 1,
          .intVal 2, .intVal 3, .intVal 4, .intVal 5, .intVal 6⟩] =
            some (a, s, st) →
        import_official_data_from_excel []
          (.table [⟨1, .dateObj ⟨2020, 1, 1⟩, .intVal 1, .intVal 2,
            .intVal 3, .intVal 4, .intVal 5, .intVal 6⟩]) =
          some (a, s, none, st)) ∧
      importRows [] (⟨3, .dateObj ⟨2020, 1, 1⟩, .typeErr, .intVal 2,
          .intVal 3, .intVal 4, .intVal 5, .intVal 6⟩ :: []) = none) :=
  ⟨Or.inr ⟨[1, 2, 3, 4, 5], rfl, by decide⟩,
   ⟨by decide, rfl⟩,
   import_batch_spec [] _ _ _ []
     (Or.inr ⟨[1, 2, 3, 4, 5], rfl, by decide⟩) ⟨by decide, rfl⟩⟩

/-- C3 counterexample: a row whose Data cell holds a value that is neither
a parseable string nor a date object (for instance a stray float in the
spreadsheet) is not skipped: the code substitutes the fallback date
1900-01-01 and inserts the row, reporting one addition and zero skips. -/
theorem import_other_date_inserted :
    importRows [] [⟨70, .other, .intVal 4, .intVal 8, .intVal 15,
      .intVal 16, .intVal 23, .intVal 42⟩] =
      some (1, 0, [⟨70, ⟨1900, 1, 1⟩, [4, 8, 15, 16, 23, 42]⟩]) := by
  decide

/-- C3 (amended): during bulk import a row whose date field is a string
that strptime("%d/%m/%Y") cannot parse is skipped and counted as skipped —
it is never inserted into the store, the remaining rows are processed on
the unchanged store and no exception arises from the date parse — while a
date value that is neither a string nor a date object is not skipped: it
receives the fallback date 1900-01-01 and the row is processed normally. -/
theorem import_unparseable_date_skipped (store : Store) (c : ℕ)
    (s : List Char) (cb1 cb2 cb3 cb4 cb5 cb6 : Cell) (rest : List Row)
    (hs : strptimeDmY s = none) :
    importRows store (⟨c, .str s, cb1, cb2, cb3, cb4, cb5, cb6⟩ :: rest) =
      (importRows store rest).map (fun o => (o.1, o.2.1 + 1, o.2.2)) ∧
    rowDate ⟨c, .other, cb1, cb2, cb3, cb4, cb5, cb6⟩ = some ⟨1900, 1, 1⟩ :=
  ⟨importRows_skippable store _ rest (Or.inl hs), rfl⟩

/-- Witness for C3 (amended) at the unparseable date string "31-12-2009"
(wrong separator for the dd/mm/yyyy format). -/
theorem import_unparseable_date_skipped_witness :
    strptimeDmY ['3', '1', '-', '1', '2', '-', '2', '0', '0', '9'] = none ∧
    (importRows [] [⟨9, .str ['3', '1', '-', '1', '2', '-', '2', '0', '0', '9'],
        .intVal 1, .intVal 2, .intVal 3, .intVal 4, .intVal 5, .intVal 6⟩] =
      (importRows [] []).map (fun o => (o.1, o.2.1 + 1, o.2.2)) ∧
      rowDate ⟨9, .other, .intVal 1, .intVal 2, .intVal 3, .intVal 4,
        .intVal 5, .intVal 6⟩ = some ⟨1900, 1, 1⟩) :=
  ⟨by decide,
   import_unparseable_date_skipped [] 9 _ _ _ _ _ _ _ [] (by decide)⟩

/-- C6 counterexample: with candidate [1..6] and four stored draws whose
hit counts are 6, 4, 3 and 5, ranking at min_hits = 4 keeps three entries
with hit counts [6, 5, 4] — the inclusive threshold keeps the draw with
exactly 4 hits, so the output is not the two entries [6, 5]. -/
theorem rankDraws_min_hits_four_counterexample :
    ((rankDraws [1, 2, 3, 4, 5, 6]
      [⟨1, ⟨2020, 1, 1⟩, [1, 2, 3, 4, 5, 6]⟩,
       ⟨2, ⟨2020, 1, 2⟩, [1, 2, 3, 4, 50, 51]⟩,
       ⟨3, ⟨2020, 1, 3⟩, [1, 2, 3, 50, 51, 52]⟩,
       ⟨4, ⟨2020, 1, 4⟩, [1, 2, 3, 4, 5, 50]⟩] 4).map SimEntry.hits =
      [6, 5, 4]) ∧
    ¬((rankDraws [1, 2, 3, 4, 5, 6]
      [⟨1, ⟨2020, 1, 1⟩, [1, 2, 3, 4, 5, 6]⟩,
       ⟨2, ⟨2020, 1, 2⟩, [1, 2, 3, 4, 50, 51]⟩,
       ⟨3, ⟨2020, 1, 3⟩, [1, 2, 3, 50, 51, 52]⟩,
       ⟨4, ⟨2020, 1, 4⟩, [1, 2, 3, 4, 5, 50]⟩] 4).map SimEntry.hits =
      [6, 5]) := by
  decide

/-- C6 (amended): in simulation mode the kept results are exactly the
stored draws whose hit count is at least 3 — a fixed threshold — ordered
descending by hit count with ties broken by contest number descending;
the fixed-threshold scan coincides with the generic ranking at
min_hits = 3; and filtering candidates with hit counts [6,4,3,5] at
min_hits = 4 yields exactly the three entries with counts [6,5,4] in that
order, the inclusive threshold keeping the 4-hit draw. -/
theorem simulateResults_spec (user : List ℤ) (draws : List Draw)
    (e : SimEntry) :
    (e ∈ simulateResults user draws ↔
      ∃ d ∈ draws, 3 ≤ (hitSet user d.numbers).card ∧ e = toSimEntry user d) ∧
    (simulateResults user draws).Sorted simGE ∧
    simulateResults user draws = rankDraws user draws 3 ∧
    ((rankDraws [1, 2, 3, 4, 5, 6]
      [⟨1, ⟨2020, 1, 1⟩, [1, 2, 3, 4, 5, 6]⟩,
       ⟨2, ⟨2020, 1, 2⟩, [1, 2, 3, 4, 50, 51]⟩,
       ⟨3, ⟨2020, 1, 3⟩, [1, 2, 3, 50, 51, 52]⟩,
       ⟨4, ⟨2020, 1, 4⟩, [1, 2, 3, 4, 5, 50]⟩] 4).map SimEntry.hits =
      [6, 5, 4]) := by
  refine ⟨?_, List.sorted_insertionSort simGE _, rfl, by decide⟩
  constructor
  · intro he
    have hmem := (List.perm_insertionSort simGE _).mem_iff.mp he
    simp only [List.mem_map, List.mem_filter, decide_eq_true_eq] at hmem
    obtain ⟨d, ⟨hd, hge⟩, rfl⟩ := hmem
    exact ⟨d, hd, hge, rfl⟩
  · rintro ⟨d, hd, hge, rfl⟩
    apply (List.perm_insertionSort simGE _).mem_iff.mpr
    simp only [List.mem_map, List.mem_filter, decide_eq_true_eq]
    exact ⟨d, ⟨hd, hge⟩, rfl⟩

set_option maxRecDepth 8000 in
/-- C7: the combination-frequency output is truncated to at most 15
entries and sorted descending by count, so every combination of strictly
greater count precedes every combination of lesser count; concretely, for
draws [[1,2,3,4,5,6],[1,2,3,7,8,9]] with k = 3 the combination (1,2,3)
with count 2 heads the output and every other reported combination has
count 1. -/
theorem combinationFrequencies_spec (draws : List (List ℤ)) (k : ℕ) :
    (combinationFrequencies draws k).length ≤ 15 ∧
    (combinationFrequencies draws k).Sorted countGE ∧
    (combinationFrequencies [[1, 2, 3, 4, 5, 6], [1, 2, 3, 7, 8, 9]] 3).head? =
      some ([1, 2, 3], 2) ∧
    (∀ e ∈ (combinationFrequencies [[1, 2, 3, 4, 5, 6], [1, 2, 3, 7, 8, 9]] 3).tail,
      e.2 = 1) := by
  refine ⟨List.length_take_le _ _, ?_, by decide, by decide⟩
  exact List.Pairwise.sublist (List.take_sublist _ _)
    (List.sorted_insertionSort countGE _)

/-- C8: combination-frequency analysis of an empty collection of draws
returns the empty sequence for every k, and on the single draw
[1,2,3,4,5,6] with k = 2 it returns exactly C(6,2) = 15 entries, each with
count 1. -/
theorem combinationFrequencies_empty_single (k : ℕ) :
    combinationFrequencies [] k = [] ∧
    (combinationFrequencies [[1, 2, 3, 4, 5, 6]] 2).length = 15 ∧
    (∀ e ∈ combinationFrequencies [[1, 2, 3, 4, 5, 6]] 2, e.2 = 1) :=
  ⟨rfl, by decide, by decide⟩

/-- Facts about Nat.digitChar on proper digit values. -/
theorem digitChar_spec (d : ℕ) (h : d < 10) :
    isDigitChar (Nat.digitChar d) = true ∧ digitVal (Nat.digitChar d) = d ∧
    Nat.digitChar d ≠ ',' ∧ Nat.digitChar d ≠ '-' := by
  interval_cases d <;> exact ⟨by decide, by decide, by decide, by decide⟩

/-- Reading most-significant-first digit characters recovers the value of
the digit list. -/
theorem valOfDigits_rev_digits (L : List ℕ) (h : ∀ d ∈ L, d < 10) :
    valOfDigits (L.reverse.map Nat.digitChar) = Nat.ofDigits 10 L := by
  induction L with
  | nil => rfl
  | cons d L ih =>
    have hd : d < 10 := h d (List.mem_cons_self d L)
    have hL : ∀ x ∈ L, x < 10 := fun x hx => h x (List.mem_cons_of_mem d hx)
    have step : valOfDigits ((d :: L).reverse.map Nat.digitChar) =
        10 * valOfDigits (L.reverse.map Nat.digitChar) +
          digitVal (Nat.digitChar d) := by
      simp only [List.reverse_cons, List.map_append, List.map_cons,
        List.map_nil, valOfDigits, List.foldl_append, List.foldl_cons,
        List.foldl_nil]
    rw [step, ih hL, (digitChar_spec d hd).2.1, Nat.ofDigits_cons]
    ring

/-- Structure of pyStrNat: nonempty, all digit characters, and its value
reads back as n. -/
theorem pyStrNat_spec (n : ℕ) :
    pyStrNat n ≠ [] ∧ (∀ c ∈ pyStrNat n, isDigitChar c = true) ∧
    valOfDigits (pyStrNat n) = n := by
  by_cases h0 : n = 0
  · subst h0
    exact ⟨by decide, by decide, by decide⟩
  · have hdig : ∀ d ∈ Nat.digits 10 n, d < 10 := fun d hd =>
      Nat.digits_lt_base (by norm_num) hd
    have hne : Nat.digits 10 n ≠ [] := Nat.digits_ne_nil_iff_ne_zero.mpr h0
    unfold pyStrNat
    rw [if_neg h0]
    refine ⟨?_, ?_, ?_⟩
    · intro hmap
      rcases List.map_eq_nil_iff.mp hmap with hrev
      exact hne (List.reverse_eq_nil_iff.mp hrev)
    · intro c hc
      simp only [List.mem_map, List.mem_reverse] at hc
      obtain ⟨d, hd, rfl⟩ := hc
      exact (digitChar_spec d (hdig d hd)).1
    · rw [valOfDigits_rev_digits _ hdig, Nat.ofDigits_digits]

/-- Python's int() inverts Python's str() on every integer. -/
theorem pyParseInt_pyStrInt (i : ℤ) : pyParseInt (pyStrInt i) = some i := by
  obtain ⟨hne, hdig, hval⟩ := pyStrNat_spec i.natAbs
  have hall : (pyStrNat i.natAbs).all isDigitChar = true :=
    List.all_eq_true.mpr fun c hc => hdig c hc
  by_cases hi : i < 0
  · unfold pyStrInt
    rw [if_pos hi]
    show pyParseInt ('-' :: pyStrNat i.natAbs) = some i
    simp only [pyParseInt]
    rw [if_pos trivial, if_pos ⟨hne, hall⟩, hval]
    congr 1
    omega
  · unfold pyStrInt
    rw [if_neg hi]
    obtain ⟨c, cs, hc⟩ := List.exists_cons_of_ne_nil hne
    have hcd : isDigitChar c = true := hdig c (by rw [hc]; exact List.mem_cons_self c cs)
    have hcne : c ≠ '-' := by
      intro hceq
      rw [hceq] at hcd
      exact absurd hcd (by decide)
    rw [hc]
    simp only [pyParseInt]
    rw [if_neg hcne, if_pos (by rw [← hc]; exact hall), ← hc, hval]
    congr 1
    omega

/-- No comma occurs in the decimal rendering of an integer. -/
theorem comma_not_mem_pyStrInt (i : ℤ) : ',' ∉ pyStrInt i := by
  obtain ⟨-, hdig, -⟩ := pyStrNat_spec i.natAbs
  have hnat : ',' ∉ pyStrNat i.natAbs := by
    intro hmem
    exact absurd (hdig _ hmem) (by decide)
  unfold pyStrInt
  split_ifs with h
  · intro hmem
    rcases List.mem_cons.mp hmem with h1 | h1
    · exact absurd h1 (by decide)
    · exact hnat h1
  · exact hnat

/-- Splitting a separator-free piece returns just that piece. -/
theorem splitOnChar_no_sep (sep : Char) (p : List Char) (h : sep ∉ p) :
    splitOnChar sep p = [p] := by
  induction p with
  | nil => rfl
  | cons c cs ih =>
    have hcs : sep ∉ cs := fun hx => h (List.mem_cons_of_mem c hx)
    have hc : c ≠ sep := fun hx => h (hx ▸ List.mem_cons_self c cs)
    simp only [splitOnChar, if_neg (fun hx => hc hx), ih hcs]

/-- Splitting past a separator-free piece peels it off. -/
theorem splitOnChar_append (sep : Char) (p rest : List Char) (h : sep ∉ p) :
    splitOnChar sep (p ++ sep :: rest) = p :: splitOnChar sep rest := by
  induction p with
  | nil =>
    simp only [List.nil_append, splitOnChar]
    rw [if_pos trivial]
  | cons c cs ih =>
    have hcs : sep ∉ cs := fun hx => h (List.mem_cons_of_mem c hx)
    have hc : c ≠ sep := fun hx => h (hx ▸ List.mem_cons_self c cs)
    show splitOnChar sep (c :: (cs ++ sep :: rest)) = (c :: cs) :: splitOnChar sep rest
    simp only [splitOnChar, if_neg (fun hx => hc hx)]
    rw [ih hcs]

/-- Splitting on commas inverts joining with commas for a nonempty list of
comma-free pieces. -/
theorem splitOnChar_joinComma (ps : List (List Char)) (hne : ps ≠ [])
    (h : ∀ p ∈ ps, ',' ∉ p) :
    splitOnChar ',' (joinComma ps) = ps := by
  induction ps with
  | nil => exact absurd rfl hne
  | cons p ps ih =>
    cases ps with
    | nil =>
      show splitOnChar ',' p = [p]
      exact splitOnChar_no_sep ',' p (h p (List.mem_cons_self p []))
    | cons q qs =>
      show splitOnChar ',' (p ++ ',' :: joinComma (q :: qs)) = p :: q :: qs
      rw [splitOnChar_append ',' p _ (h p (List.mem_cons_self p _))]
      rw [ih (by simp) (fun x hx => h x (List.mem_cons_of_mem p hx))]

/-- Parsing the rendered pieces recovers the integers. -/
theorem parseAll_map_pyStrInt (ns : List ℤ) :
    parseAll (ns.map pyStrInt) = some ns := by
  induction ns with
  | nil => rfl
  | cons n ns ih =>
    simp only [List.map_cons, parseAll, pyParseInt_pyStrInt, ih]

/-- C10: parsing inverts the persistence serialization — for every
nonempty list of integers, parse_numbers_from_str applied to
",".join(map(str, sorted(ns))) returns exactly sorted(ns), so reading back
any persisted ticket recovers its numbers. -/
theorem parse_numbers_roundtrip (ns : List ℤ) (h : ns ≠ []) :
    parse_numbers_from_str (persistNumbers ns) = some (pySort ns) := by
  have hsort_ne : pySort ns ≠ [] := by
    intro hnil
    have hlen := (pySort_perm ns).length_eq
    rw [hnil] at hlen
    exact h (List.length_eq_zero.mp hlen.symm)
  have hmapne : (pySort ns).map pyStrInt ≠ [] := by
    intro hnil
    exact hsort_ne (List.map_eq_nil_iff.mp hnil)
  have hcomma : ∀ p ∈ (pySort ns).map pyStrInt, ',' ∉ p := by
    intro p hp
    obtain ⟨i, -, rfl⟩ := List.mem_map.mp hp
    exact comma_not_mem_pyStrInt i
  unfold parse_numbers_from_str persistNumbers
  rw [splitOnChar_joinComma _ hmapne hcomma, parseAll_map_pyStrInt]

/-- Witness for C10 on the list [3, 1, 2]. -/
theorem parse_numbers_roundtrip_witness :
    ([3, 1, 2] : List ℤ) ≠ [] ∧
    parse_numbers_from_str (persistNumbers [3, 1, 2]) =
      some (pySort [3, 1, 2]) :=
  ⟨by decide, parse_numbers_roundtrip [3, 1, 2] (by decide)⟩

end MegaSena
